import Mathlib

/-!
Shallow embedding of `price_tracker.py`: a commodity price tracker over a
SQLite file with three tables (`products`, `markets`, `prices`), a data-access
class `DatabaseManager`, and a `Plotter` that renders price trends.

Modelling decisions:
* The SQLite database is a `Store`: one list of rows per table, plus the
  AUTOINCREMENT counters for the `id` columns.
* Python floats are modelled as exact rationals (`Rat`): the code performs
  no arithmetic on prices, it only stores and returns them.
* `date` columns are `TEXT` in the schema; they stay `String` here.  The
  final `pd.to_datetime` conversion in `fetch_timeseries` does not reorder
  or drop rows, so rows keep their ISO date strings.
* Python's `raise ValueError(msg)` is the error value `PyError.valueError msg`;
  fallible operations return `Except PyError _`.
* `ORDER BY ... ASC` is modelled with `List.insertionSort` (SQLite's order
  among ties is unspecified; every claim below is insensitive to tie order).
* Python truthiness of an `Optional[str]` (`if market:`) is `truthy`:
  `None` and `""` are falsy, all other strings are truthy.
-/

namespace PriceTracker

/-- SQLite's default BINARY collation on `TEXT`, used by every `ORDER BY`
in the code: bytewise (equivalently, code-point-wise) comparison of the
character lists.  Written as an explicitly computable function so concrete
stores evaluate inside proofs; `strLe_iff` below identifies it with the
lexicographic `≤` on `String`. -/
def charsLe : List Char → List Char → Bool
  | [], _ => true
  | _ :: _, [] => false
  | a :: as, b :: bs =>
    if a < b then true
    else if b < a then false
    else charsLe as bs

/-- `ORDER BY` comparison on two `TEXT` values. -/
def strLe (a b : String) : Bool := charsLe a.data b.data

theorem charsLe_iff_not_lex : ∀ x y : List Char,
    charsLe x y = true ↔ ¬ List.Lex (· < ·) y x := by
  intro x
  induction x with
  | nil =>
    intro y
    simp [charsLe, List.Lex.not_nil_right]
  | cons a as ih =>
    intro y
    cases y with
    | nil =>
      simp [charsLe]
      exact List.Lex.nil
    | cons b bs =>
      by_cases hab : a < b
      · simp [charsLe, hab]
        intro h
        cases h with
        | cons h => exact absurd hab (lt_irrefl _)
        | rel h => exact absurd (lt_trans h hab) (lt_irrefl _)
      · by_cases hba : b < a
        · simp [charsLe, hab, hba]
          exact List.Lex.rel hba
        · have hEq : b = a := le_antisymm (not_lt.mp hab) (not_lt.mp hba)
          subst hEq
          simp [charsLe, lt_irrefl]
          rw [ih bs]
          constructor
          · intro h hl
            cases hl with
            | cons h2 => exact h h2
            | rel h2 => exact absurd h2 (lt_irrefl _)
          · intro h h2
            exact h (List.Lex.cons h2)

/-- The `ORDER BY` comparison agrees with the lexicographic order on
`String`. -/
theorem strLe_iff (a b : String) : strLe a b = true ↔ a ≤ b := by
  rw [strLe, charsLe_iff_not_lex, String.le_iff_toList_le]
  exact not_lt (α := List Char)

/-- A row of the `prices` table:
`(id, product_id, market_id, price, date)` as created by `record_price`. -/
structure PriceRow where
  id : Nat
  product_id : Nat
  market_id : Nat
  price : Rat
  date : String
deriving DecidableEq

/-- The state of the SQLite database file: the three tables of `DB_SCHEMA`
(`products(id, name)`, `markets(id, name, location)`, `prices`), plus the
AUTOINCREMENT counters supplying the next `id` of each table. -/
structure Store where
  products : List (Nat × String)
  markets : List (Nat × String × String)
  prices : List PriceRow
  next_product_id : Nat
  next_market_id : Nat
  next_price_id : Nat
deriving DecidableEq

/-- A fresh database file: all three tables empty, AUTOINCREMENT at 1. -/
def emptyStore : Store :=
  { products := [], markets := [], prices := [],
    next_product_id := 1, next_market_id := 1, next_price_id := 1 }

/-- A raised Python exception; the code raises only `ValueError(msg)`. -/
inductive PyError where
  | valueError (msg : String)
deriving DecidableEq

/-- `DatabaseManager.add_product`:
`INSERT OR IGNORE INTO products(name) VALUES (?)` — a no-op when a product
row with this name exists (the `UNIQUE` constraint on `name` plus
`OR IGNORE`), otherwise appends a row with the next id. -/
def add_product (name : String) (s : Store) : Store :=
  if s.products.any (fun p => p.2 == name) then s
  else { s with
    products := s.products ++ [(s.next_product_id, name)],
    next_product_id := s.next_product_id + 1 }

/-- `DatabaseManager.add_market`:
`INSERT OR IGNORE INTO markets(name, location) VALUES (?, ?)` — same
insert-or-ignore semantics as `add_product`, keyed on the market name. -/
def add_market (name : String) (location : String) (s : Store) : Store :=
  if s.markets.any (fun m => m.2.1 == name) then s
  else { s with
    markets := s.markets ++ [(s.next_market_id, name, location)],
    next_market_id := s.next_market_id + 1 }

/-- `DatabaseManager.get_product_id`:
`SELECT id FROM products WHERE name = ?`, then `fetchone()` —
the id of the first matching row, or `none`. -/
def get_product_id (name : String) (s : Store) : Option Nat :=
  (s.products.find? (fun p => p.2 == name)).map Prod.fst

/-- `DatabaseManager.get_market_id`:
`SELECT id FROM markets WHERE name = ?`, then `fetchone()`. -/
def get_market_id (name : String) (s : Store) : Option Nat :=
  (s.markets.find? (fun m => m.2.1 == name)).map Prod.fst

/-- `DatabaseManager.record_price`: looks up both ids; raises
`ValueError("Unknown product or market. Ensure they are added first.")`
if either is missing (`if pid is None or mid is None`), otherwise inserts a
new `prices` row. -/
def record_price (product market : String) (price : Rat) (date_iso : String)
    (s : Store) : Except PyError Store :=
  let pid := get_product_id product s
  let mid := get_market_id market s
  if pid.isNone || mid.isNone then
    .error (.valueError "Unknown product or market. Ensure they are added first.")
  else
    .ok { s with
      prices := s.prices ++
        [{ id := s.next_price_id, product_id := pid.getD 0, market_id := mid.getD 0,
           price := price, date := date_iso }],
      next_price_id := s.next_price_id + 1 }

/-- The database state after a `record_price` call: the new state on
success, the original state when the call raised. -/
def storeAfterRecord (product market : String) (price : Rat) (date_iso : String)
    (s : Store) : Store :=
  match record_price product market price date_iso s with
  | .ok s2 => s2
  | .error _ => s

/-- One result row of the `fetch_timeseries` query:
`SELECT p.name as product, m.name as market, pr.price, pr.date`. -/
structure TSRow where
  product : String
  market : String
  price : Rat
  date : String
deriving DecidableEq

/-- Python truthiness of an `Optional[str]`: `None` and `""` are falsy. -/
def truthy : Option String → Bool
  | none => false
  | some m => !(m == "")

/-- The two inner `JOIN`s of the `fetch_timeseries` query, before the
`WHERE` filters: every combination of a `prices` row with a `products` row
of matching `product_id` and a `markets` row of matching `market_id`. -/
def joined (s : Store) : List TSRow :=
  s.prices.flatMap (fun pr =>
    (s.products.filter (fun p => p.1 == pr.product_id)).flatMap (fun p =>
      (s.markets.filter (fun m => m.1 == pr.market_id)).map (fun m =>
        { product := p.2, market := m.2.1, price := pr.price, date := pr.date })))

/-- The row ordering of `ORDER BY pr.date ASC`. -/
def dateLe (a b : TSRow) : Prop := strLe a.date b.date = true

instance : DecidableRel dateLe := fun a b =>
  inferInstanceAs (Decidable (strLe a.date b.date = true))

instance : IsTotal TSRow dateLe := ⟨fun a b => by
  rcases le_total a.date b.date with h | h
  · exact Or.inl ((strLe_iff _ _).mpr h)
  · exact Or.inr ((strLe_iff _ _).mpr h)⟩

instance : IsTrans TSRow dateLe := ⟨fun _ _ _ h1 h2 =>
  (strLe_iff _ _).mpr
    (le_trans ((strLe_iff _ _).mp h1) ((strLe_iff _ _).mp h2))⟩

/-- The row ordering of `ORDER BY name` on a `name` column. -/
def nameLe (a b : String) : Prop := strLe a b = true

instance : DecidableRel nameLe := fun a b =>
  inferInstanceAs (Decidable (strLe a b = true))

instance : IsTotal String nameLe := ⟨fun a b => by
  rcases le_total a b with h | h
  · exact Or.inl ((strLe_iff _ _).mpr h)
  · exact Or.inr ((strLe_iff _ _).mpr h)⟩

instance : IsTrans String nameLe := ⟨fun _ _ _ h1 h2 =>
  (strLe_iff _ _).mpr
    (le_trans ((strLe_iff _ _).mp h1) ((strLe_iff _ _).mp h2))⟩

/-- The row ordering of `ORDER BY name` on `(name, location)` pairs. -/
def fstNameLe (a b : String × String) : Prop := strLe a.1 b.1 = true

instance : DecidableRel fstNameLe := fun a b =>
  inferInstanceAs (Decidable (strLe a.1 b.1 = true))

instance : IsTotal (String × String) fstNameLe := ⟨fun a b => by
  rcases le_total a.1 b.1 with h | h
  · exact Or.inl ((strLe_iff _ _).mpr h)
  · exact Or.inr ((strLe_iff _ _).mpr h)⟩

instance : IsTrans (String × String) fstNameLe := ⟨fun _ _ _ h1 h2 =>
  (strLe_iff _ _).mpr
    (le_trans ((strLe_iff _ _).mp h1) ((strLe_iff _ _).mp h2))⟩

/-- `DatabaseManager.fetch_timeseries`: the join filtered by
`p.name = ?`, then — only when `market` is truthy (`if market:`) — by
`m.name = ?`, ordered by `pr.date ASC`. -/
def fetch_timeseries (product : String) (market : Option String) (s : Store) :
    List TSRow :=
  let rows := (joined s).filter (fun r => r.product == product)
  let rows := if truthy market then
      rows.filter (fun r => r.market == market.getD "")
    else rows
  List.insertionSort dateLe rows

/-- `DatabaseManager.list_products`:
`SELECT name FROM products ORDER BY name`. -/
def list_products (s : Store) : List String :=
  List.insertionSort nameLe (s.products.map Prod.snd)

/-- `DatabaseManager.list_markets`:
`SELECT name, location FROM markets ORDER BY name`. -/
def list_markets (s : Store) : List (String × String) :=
  List.insertionSort fstNameLe (s.markets.map Prod.snd)

/-- One `CREATE TABLE IF NOT EXISTS` statement of `DB_SCHEMA`: the table it
creates and the tables its `FOREIGN KEY` clauses reference. -/
structure CreateStmt where
  table : String
  refs : List String
deriving DecidableEq

/-- `DB_SCHEMA`: the dict of DDL statements, in its (insertion-order)
iteration order `products`, `markets`, `prices`.  `prices` carries
`FOREIGN KEY(product_id) REFERENCES products(id)` and
`FOREIGN KEY(market_id) REFERENCES markets(id)`. -/
def DB_SCHEMA : List CreateStmt :=
  [ { table := "products", refs := [] },
    { table := "markets", refs := [] },
    { table := "prices", refs := ["products", "markets"] } ]

/-- The database file as the schema layer sees it: the list of tables that
exist, plus all stored rows (the `Store`). -/
structure DBFile where
  tables : List String
  store : Store
deriving DecidableEq

/-- Executing one `CREATE TABLE IF NOT EXISTS` statement: a no-op when the
table already exists, otherwise the table is added; rows are never touched. -/
def execCreate (d : DBFile) (c : CreateStmt) : DBFile :=
  if c.table ∈ d.tables then d
  else { d with tables := d.tables ++ [c.table] }

/-- `DatabaseManager._init_db`: executes every DDL of `DB_SCHEMA.values()`
in iteration order. -/
def init_db (d : DBFile) : DBFile :=
  DB_SCHEMA.foldl execCreate d

/-- A rendered chart, as `Plotter.plot_product_trend` builds it: the plotted
lines (label and `(date, price)` points), the title, axis labels, and the
path the figure was saved to (`none` when shown interactively). -/
structure Chart where
  lines : List (String × List (String × Rat))
  title : String
  xlabel : String
  ylabel : String
  savedTo : Option String
deriving DecidableEq

/-- `df.groupby('market')` with pandas defaults: group keys sorted
ascending, each group keeping the frame's row order. -/
def group_by_market (rows : List TSRow) : List (String × List TSRow) :=
  (List.insertionSort nameLe (rows.map TSRow.market).dedup).map
    (fun mk => (mk, rows.filter (fun r => r.market == mk)))

/-- `Plotter.plot_product_trend`: fetches the time series, raises
`ValueError("No data to plot.")` on an empty frame, otherwise draws one
line (market truthy) or one line per market (`groupby`), titles and labels
the chart, and saves it to `out_path` when given. -/
def plot_product_trend (product : String) (market : Option String)
    (out_path : Option String) (s : Store) : Except PyError Chart :=
  let df := fetch_timeseries product market s
  if df.isEmpty then .error (.valueError "No data to plot.")
  else
    .ok {
      lines :=
        if truthy market then
          [(product ++ " - " ++ market.getD "",
            df.map (fun r => (r.date, r.price)))]
        else
          (group_by_market df).map
            (fun g => (g.1, g.2.map (fun r => (r.date, r.price)))),
      title := "Price Trend: " ++ product ++
        (if truthy market then " (" ++ market.getD "" ++ ")" else ""),
      xlabel := "Date",
      ylabel := "Price (UGX per kg)",
      savedTo := out_path }

/-- The set of files a `plot_product_trend` call writes: the saved path on
success (when `out_path` was given), nothing when the call raised. -/
def chartFiles : Except PyError Chart → List String
  | .error _ => []
  | .ok c => c.savedTo.toList

/-! ## Helper lemmas -/

/-- In a table whose `f`-column is `UNIQUE` (no duplicates), filtering for
the key of a row that is present returns exactly that row. -/
theorem filter_key_singleton {α β : Type} [DecidableEq β] (f : α → β) :
    ∀ (l : List α) (r : α), r ∈ l → (l.map f).Nodup →
      l.filter (fun x => f x == f r) = [r] := by
  intro l
  induction l with
  | nil => intro r hr; cases hr
  | cons a t ih =>
    intro r hr hnd
    rw [List.map_cons, List.nodup_cons] at hnd
    rcases List.mem_cons.mp hr with rfl | hrt
    · have ht : t.filter (fun x => f x == f r) = [] := by
        apply List.filter_eq_nil_iff.mpr
        intro x hx hfx
        exact hnd.1 (List.mem_map.mpr ⟨x, hx, beq_iff_eq.mp hfx⟩)
      simp [List.filter_cons, ht]
    · have hne : (f a == f r) = false := by
        apply beq_eq_false_iff_ne.mpr
        intro hEq
        exact hnd.1 (hEq ▸ List.mem_map.mpr ⟨r, hrt, rfl⟩)
      simp [List.filter_cons, hne, ih r hrt hnd.2]

/-- Membership in the join projects to a product row of the same name. -/
theorem mem_joined_product {s : Store} {r : TSRow} (h : r ∈ joined s) :
    ∃ p ∈ s.products, p.2 = r.product := by
  simp only [joined, List.mem_flatMap, List.mem_map, List.mem_filter] at h
  obtain ⟨pr, _, p, ⟨hp, _⟩, m, ⟨_, _⟩, rfl⟩ := h
  exact ⟨p, hp, rfl⟩

/-- A list whose insertion sort is empty is empty. -/
theorem eq_nil_of_insertionSort_eq_nil {α : Type} (r : α → α → Prop)
    [DecidableRel r] {l : List α} (h : List.insertionSort r l = []) : l = [] := by
  have hp := List.perm_insertionSort r l
  rw [h] at hp
  exact hp.symm.eq_nil

/-! ## Claims -/

/-- Claim C1: whenever the product name or the market name has no
registered entity, `record_price` raises the reference error with signal
"Unknown product or market" (a prefix of the raised message), and the
store is unchanged — no `prices` row is written. -/
theorem C1_record_price_unknown_fails (product market : String) (price : Rat)
    (date_iso : String) (s : Store)
    (h : get_product_id product s = none ∨ get_market_id market s = none) :
    record_price product market price date_iso s =
      .error (.valueError "Unknown product or market. Ensure they are added first.")
    ∧ storeAfterRecord product market price date_iso s = s
    ∧ ∃ rest, "Unknown product or market. Ensure they are added first." =
        "Unknown product or market" ++ rest := by
  have hrec : record_price product market price date_iso s =
      .error (.valueError "Unknown product or market. Ensure they are added first.") := by
    rcases h with h | h <;> simp [record_price, h]
  refine ⟨hrec, ?_, ⟨". Ensure they are added first.", rfl⟩⟩
  simp [storeAfterRecord, hrec]

/-- Witness for C1 at a fresh store and unregistered names. -/
theorem C1_witness :
    record_price "Beans" "Owino" 5 "2024-01-01" emptyStore =
      .error (.valueError "Unknown product or market. Ensure they are added first.")
    ∧ storeAfterRecord "Beans" "Owino" 5 "2024-01-01" emptyStore = emptyStore
    ∧ ∃ rest, "Unknown product or market. Ensure they are added first." =
        "Unknown product or market" ++ rest :=
  C1_record_price_unknown_fails "Beans" "Owino" 5 "2024-01-01" emptyStore (Or.inl rfl)

/-- Claim C2: for every store state, product name, and optional market
name, the sequence returned by `fetch_timeseries` is non-decreasing by
date: adjacent (indeed, all) pairs of rows are ordered by `≤` on dates. -/
theorem C2_fetch_timeseries_sorted (product : String) (market : Option String)
    (s : Store) :
    (fetch_timeseries product market s).Sorted (fun a b => a.date ≤ b.date) := by
  apply List.Pairwise.imp (fun hab => (strLe_iff _ _).mp hab)
  exact List.sorted_insertionSort dateLe _

/-- Claim C5: when the product has zero matching observations — in
particular whenever the product name is unregistered — `fetch_timeseries`
returns the empty sequence (and, being total, raises no error). -/
theorem C5_fetch_timeseries_empty (product : String) (market : Option String)
    (s : Store)
    (h : get_product_id product s = none ∨
         (joined s).filter (fun r => r.product == product) = []) :
    fetch_timeseries product market s = [] := by
  have hf : (joined s).filter (fun r => r.product == product) = [] := by
    rcases h with h | h
    · apply List.filter_eq_nil_iff.mpr
      intro r hr hpred
      obtain ⟨p, hp, hname⟩ := mem_joined_product hr
      have : s.products.find? (fun p => p.2 == product) = none := by
        simpa [get_product_id] using h
      have hnone := List.find?_eq_none.mp this p hp
      rw [hname] at hnone
      exact hnone hpred
    · exact h
  simp only [fetch_timeseries, hf, List.filter_nil, ite_self]
  rfl

/-- Witness for C5: an unregistered product on a fresh store. -/
theorem C5_witness :
    fetch_timeseries "Millet" none emptyStore = [] :=
  C5_fetch_timeseries_empty "Millet" none emptyStore (Or.inl rfl)

/-- Claim C7: for every store state (so in particular every state reachable
by `add_product`/`add_market` calls in any order), `list_products` is in
ascending alphabetical order and `list_markets` is in ascending
alphabetical order by market name. -/
theorem C7_lists_sorted (s : Store) :
    (list_products s).Sorted (· ≤ ·)
    ∧ (list_markets s).Sorted (fun a b => a.1 ≤ b.1) := by
  constructor
  · apply List.Pairwise.imp (fun hab => (strLe_iff _ _).mp hab)
    exact List.sorted_insertionSort nameLe _
  · apply List.Pairwise.imp (fun hab => (strLe_iff _ _).mp hab)
    exact List.sorted_insertionSort fstNameLe _

/-- Claim C10: passing the empty string as the market filter behaves
exactly like omitting it (`if market:` is false for `""`), for both
`fetch_timeseries` and `plot_product_trend`. -/
theorem C10_empty_market_means_no_filter (product : String)
    (out_path : Option String) (s : Store) :
    fetch_timeseries product (some "") s = fetch_timeseries product none s
    ∧ plot_product_trend product (some "") out_path s =
        plot_product_trend product none out_path s := by
  have ht : truthy (some "") = truthy none := by rfl
  constructor
  · simp [fetch_timeseries, ht]
  · simp [plot_product_trend, fetch_timeseries, ht]

/-- Claim C6: when the time-series query returns no rows,
`plot_product_trend` raises the no-data error with signal "No data to
plot" (a prefix of the raised message), writes no output file, and — the
call being a pure read of the store — leaves the store unchanged. -/
theorem C6_plot_no_data_fails (product : String) (market : Option String)
    (out_path : Option String) (s : Store)
    (h : fetch_timeseries product market s = []) :
    plot_product_trend product market out_path s =
      .error (.valueError "No data to plot.")
    ∧ chartFiles (plot_product_trend product market out_path s) = []
    ∧ ∃ rest, "No data to plot." = "No data to plot" ++ rest := by
  have hplot : plot_product_trend product market out_path s =
      .error (.valueError "No data to plot.") := by
    simp [plot_product_trend, h]
  exact ⟨hplot, by simp [chartFiles, hplot], ⟨".", rfl⟩⟩

/-- Witness for C6: plotting an unregistered product on a fresh store. -/
theorem C6_witness :
    plot_product_trend "Millet" none (some "out.png") emptyStore =
      .error (.valueError "No data to plot.")
    ∧ chartFiles (plot_product_trend "Millet" none (some "out.png") emptyStore) = []
    ∧ ∃ rest, "No data to plot." = "No data to plot" ++ rest :=
  C6_plot_no_data_fails "Millet" none (some "out.png") emptyStore rfl

/-- Claim C8: `_init_db` on a file where the three relations already exist
is a no-op (no error; schema and all stored rows unchanged), and in the
issued sequence of create-if-absent statements every referenced relation
(`products`, `markets`) is created at an earlier position than the
referencing one (`prices`). -/
theorem C8_init_db_idempotent (d : DBFile)
    (h : "products" ∈ d.tables ∧ "markets" ∈ d.tables ∧ "prices" ∈ d.tables) :
    init_db d = d
    ∧ (∀ i : Fin DB_SCHEMA.length, ∀ t ∈ (DB_SCHEMA.get i).refs,
        ∃ j : Fin DB_SCHEMA.length, j < i ∧ (DB_SCHEMA.get j).table = t) := by
  constructor
  · simp [init_db, DB_SCHEMA, execCreate, h.1, h.2.1, h.2.2]
  · decide

/-- Witness for C8 on a file with all three relations present. -/
theorem C8_witness :
    init_db { tables := ["products", "markets", "prices"], store := emptyStore }
      = { tables := ["products", "markets", "prices"], store := emptyStore }
    ∧ (∀ i : Fin DB_SCHEMA.length, ∀ t ∈ (DB_SCHEMA.get i).refs,
        ∃ j : Fin DB_SCHEMA.length, j < i ∧ (DB_SCHEMA.get j).table = t) :=
  C8_init_db_idempotent
    { tables := ["products", "markets", "prices"], store := emptyStore }
    ⟨by decide, by decide, by decide⟩

/-- Claim C4: under the `UNIQUE(name)` constraints the storage engine
maintains, a second `add_product` with the same name is a no-op (no
overwrite, no error — both calls are total and the repeat returns the
same store), and exactly one `products` row carries that name; likewise
for `add_market`. -/
theorem C4_add_twice_one_row (name location : String) (s : Store)
    (hp : (s.products.map Prod.snd).Nodup)
    (hm : (s.markets.map (fun m => m.2.1)).Nodup) :
    add_product name (add_product name s) = add_product name s
    ∧ ((add_product name s).products.filter (fun p => p.2 == name)).length = 1
    ∧ add_market name location (add_market name location s)
        = add_market name location s
    ∧ ((add_market name location s).markets.filter
        (fun m => m.2.1 == name)).length = 1 := by
  refine ⟨?_, ?_, ?_, ?_⟩
  · by_cases hc : s.products.any (fun p => p.2 == name) = true
    · simp [add_product, hc]
    · have hc2 : s.products.any (fun p => p.2 == name) = false :=
        Bool.eq_false_iff.mpr hc
      simp [add_product, hc2, List.any_append]
  · by_cases hc : s.products.any (fun p => p.2 == name) = true
    · obtain ⟨p, hp1, hp2⟩ := List.any_eq_true.mp hc
      have hname : p.2 = name := beq_iff_eq.mp hp2
      have hsingle := filter_key_singleton Prod.snd s.products p hp1 hp
      rw [hname] at hsingle
      simp [add_product, hc, hsingle]
    · have hc2 : s.products.any (fun p => p.2 == name) = false :=
        Bool.eq_false_iff.mpr hc
      have hnil : s.products.filter (fun p => p.2 == name) = [] := by
        apply List.filter_eq_nil_iff.mpr
        intro p hp1 hp2
        exact hc (List.any_eq_true.mpr ⟨p, hp1, hp2⟩)
      simp [add_product, hc2, List.filter_append, hnil]
  · by_cases hc : s.markets.any (fun m => m.2.1 == name) = true
    · simp [add_market, hc]
    · have hc2 : s.markets.any (fun m => m.2.1 == name) = false :=
        Bool.eq_false_iff.mpr hc
      simp [add_market, hc2, List.any_append]
  · by_cases hc : s.markets.any (fun m => m.2.1 == name) = true
    · obtain ⟨m, hm1, hm2⟩ := List.any_eq_true.mp hc
      have hname : m.2.1 = name := beq_iff_eq.mp hm2
      have hsingle : s.markets.filter (fun x => x.2.1 == name) = [m] := by
        rw [← hname]
        exact filter_key_singleton (fun m => m.2.1) s.markets m hm1 hm
      simp [add_market, hc, hsingle]
    · have hc2 : s.markets.any (fun m => m.2.1 == name) = false :=
        Bool.eq_false_iff.mpr hc
      have hnil : s.markets.filter (fun m => m.2.1 == name) = [] := by
        apply List.filter_eq_nil_iff.mpr
        intro m hm1 hm2
        exact hc (List.any_eq_true.mpr ⟨m, hm1, hm2⟩)
      simp [add_market, hc2, List.filter_append, hnil]

/-- Witness for C4 on a fresh store. -/
theorem C4_witness :
    add_product "Maize" (add_product "Maize" emptyStore)
        = add_product "Maize" emptyStore
    ∧ ((add_product "Maize" emptyStore).products.filter
        (fun p => p.2 == "Maize")).length = 1
    ∧ add_market "Maize" "Kampala" (add_market "Maize" "Kampala" emptyStore)
        = add_market "Maize" "Kampala" emptyStore
    ∧ ((add_market "Maize" "Kampala" emptyStore).markets.filter
        (fun m => m.2.1 == "Maize")).length = 1 :=
  C4_add_twice_one_row "Maize" "Kampala" emptyStore
    (by decide) (by decide)

/-- The invariant of claim C9 as stated: names non-empty and unique in
both reference tables. -/
def NamesInv (s : Store) : Prop :=
  (∀ p ∈ s.products, p.2 ≠ "")
  ∧ (∀ m ∈ s.markets, m.2.1 ≠ "")
  ∧ (s.products.map Prod.snd).Nodup
  ∧ (s.markets.map (fun m => m.2.1)).Nodup

instance decNamesInv (s : Store) : Decidable (NamesInv s) :=
  inferInstanceAs (Decidable ((∀ p ∈ s.products, p.2 ≠ "")
    ∧ (∀ m ∈ s.markets, m.2.1 ≠ "")
    ∧ (s.products.map Prod.snd).Nodup
    ∧ (s.markets.map (fun m : Nat × String × String => m.2.1)).Nodup))

/-- The part of the C9 invariant the code does maintain: name uniqueness
in both reference tables. -/
def UniqueNames (s : Store) : Prop :=
  (s.products.map Prod.snd).Nodup ∧ (s.markets.map (fun m => m.2.1)).Nodup

instance decUniqueNames (s : Store) : Decidable (UniqueNames s) :=
  inferInstanceAs (Decidable ((s.products.map Prod.snd).Nodup
    ∧ (s.markets.map (fun m : Nat × String × String => m.2.1)).Nodup))

/-- `_init_db` never touches stored rows, whatever tables exist. -/
theorem foldl_execCreate_store :
    ∀ (cs : List CreateStmt) (d : DBFile), (cs.foldl execCreate d).store = d.store := by
  intro cs
  induction cs with
  | nil => intro d; rfl
  | cons c t ih =>
    intro d
    rw [List.foldl_cons, ih]
    unfold execCreate
    split <;> rfl

/-- Counterexample to claim C9 as stated: the empty store satisfies the
invariant, but `add_product ""` — which the code accepts, since the
schema only says `NOT NULL`, not non-empty — creates a product whose name
is the empty string, violating it.  So the invariant is not preserved by
every operation. -/
theorem C9_counterexample :
    NamesInv emptyStore ∧ ¬ NamesInv (add_product "" emptyStore) := by
  decide

/-- Claim C9 amended: every store operation preserves name uniqueness in
the `products` and `markets` tables (non-emptiness is dropped: the code
accepts empty names).  The mutating operations are `add_product`,
`add_market`, `record_price` and `_init_db`; the remaining operations are
pure reads. -/
theorem C9_amended_unique_preserved (s : Store)
    (name location product market : String) (price : Rat) (date_iso : String)
    (tables : List String) (h : UniqueNames s) :
    UniqueNames (add_product name s)
    ∧ UniqueNames (add_market name location s)
    ∧ UniqueNames (storeAfterRecord product market price date_iso s)
    ∧ UniqueNames (init_db { tables := tables, store := s }).store := by
  obtain ⟨hp, hm⟩ := h
  refine ⟨?_, ?_, ?_, ?_⟩
  · by_cases hc : s.products.any (fun p => p.2 == name) = true
    · simpa [add_product, hc] using And.intro hp hm
    · have hnotin : name ∉ s.products.map Prod.snd := by
        intro hmem
        obtain ⟨p, hp1, hp2⟩ := List.mem_map.mp hmem
        exact hc (List.any_eq_true.mpr ⟨p, hp1, beq_iff_eq.mpr hp2⟩)
      have hc2 : s.products.any (fun p => p.2 == name) = false :=
        Bool.eq_false_iff.mpr hc
      refine ⟨?_, ?_⟩
      · simp only [add_product, hc2, Bool.false_eq_true, if_false, List.map_append]
        rw [List.nodup_append]
        refine ⟨hp, List.nodup_singleton _, ?_⟩
        intro a ha hb
        simp only [List.map_cons, List.map_nil, List.mem_singleton] at hb
        subst hb
        exact hnotin ha
      · simpa [add_product, hc2] using hm
  · by_cases hc : s.markets.any (fun m => m.2.1 == name) = true
    · simpa [add_market, hc] using And.intro hp hm
    · have hnotin : name ∉ s.markets.map (fun m => m.2.1) := by
        intro hmem
        obtain ⟨m, hm1, hm2⟩ := List.mem_map.mp hmem
        exact hc (List.any_eq_true.mpr ⟨m, hm1, beq_iff_eq.mpr hm2⟩)
      have hc2 : s.markets.any (fun m => m.2.1 == name) = false :=
        Bool.eq_false_iff.mpr hc
      refine ⟨?_, ?_⟩
      · simpa [add_market, hc2] using hp
      · simp only [add_market, hc2, Bool.false_eq_true, if_false, List.map_append]
        rw [List.nodup_append]
        refine ⟨hm, List.nodup_singleton _, ?_⟩
        intro a ha hb
        simp only [List.map_cons, List.map_nil, List.mem_singleton] at hb
        subst hb
        exact hnotin ha
  · unfold storeAfterRecord record_price
    by_cases hc : ((get_product_id product s).isNone
        || (get_market_id market s).isNone) = true
    · simp only [hc, if_true]
      exact ⟨hp, hm⟩
    · have hc2 := Bool.eq_false_iff.mpr hc
      simp only [hc2, Bool.false_eq_true, if_false]
      exact ⟨hp, hm⟩
  · rw [init_db, foldl_execCreate_store]
    exact ⟨hp, hm⟩

/-- Witness for the amended C9 at a concrete store. -/
theorem C9_witness :
    UniqueNames (add_product "Maize" emptyStore)
    ∧ UniqueNames (add_market "Maize" "Kampala" emptyStore)
    ∧ UniqueNames (storeAfterRecord "Maize" "Owino" 100 "2024-01-01" emptyStore)
    ∧ UniqueNames (init_db { tables := [], store := emptyStore }).store :=
  C9_amended_unique_preserved emptyStore "Maize" "Kampala" "Maize" "Owino"
    100 "2024-01-01" [] (by decide)

/-- Claim C3: on a store whose `id` columns are injective (the primary-key
property the engine maintains), with "Maize" and "Kampala Central"
registered and no observation yet for that pair, recording price 1200 on
2024-01-15 succeeds and the following fetch returns exactly that one row. -/
theorem C3_record_then_fetch_round_trip (s : Store)
    (hwfp : (s.products.map Prod.fst).Nodup)
    (hwfm : (s.markets.map Prod.fst).Nodup)
    (hp : (get_product_id "Maize" s).isSome = true)
    (hm : (get_market_id "Kampala Central" s).isSome = true)
    (h0 : fetch_timeseries "Maize" (some "Kampala Central") s = []) :
    (record_price "Maize" "Kampala Central" 1200 "2024-01-15" s).map
        (fetch_timeseries "Maize" (some "Kampala Central"))
      = .ok [{ product := "Maize", market := "Kampala Central",
               price := 1200, date := "2024-01-15" }] := by
  -- extract the looked-up ids and their unique rows
  cases hps : get_product_id "Maize" s with
  | none => rw [hps] at hp; cases hp
  | some pid =>
  cases hms : get_market_id "Kampala Central" s with
  | none => rw [hms] at hm; cases hm
  | some mid =>
  obtain ⟨prow, hpfind, hpfst⟩ := Option.map_eq_some'.mp hps
  obtain ⟨mrow, hmfind, hmfst⟩ := Option.map_eq_some'.mp hms
  have hpname : prow.2 = "Maize" := by
    have := List.find?_some hpfind
    simpa using this
  have hmname : mrow.2.1 = "Kampala Central" := by
    have := List.find?_some hmfind
    simpa using this
  have hpmem : prow ∈ s.products := List.mem_of_find?_eq_some hpfind
  have hmmem : mrow ∈ s.markets := List.mem_of_find?_eq_some hmfind
  have hpfilter : s.products.filter (fun x => x.1 == pid) = [prow] := by
    rw [← hpfst]
    exact filter_key_singleton Prod.fst s.products prow hpmem hwfp
  have hmfilter : s.markets.filter (fun x => x.1 == mid) = [mrow] := by
    rw [← hmfst]
    exact filter_key_singleton Prod.fst s.markets mrow hmmem hwfm
  -- the successful insert
  have hrec : record_price "Maize" "Kampala Central" 1200 "2024-01-15" s =
      .ok { s with
        prices := s.prices ++
          [{ id := s.next_price_id, product_id := pid, market_id := mid,
             price := 1200, date := "2024-01-15" }],
        next_price_id := s.next_price_id + 1 } := by
    simp [record_price, hps, hms]
  rw [hrec]
  simp only [Except.map]
  -- the fetch over the grown prices table
  have hjoin : joined { s with
      prices := s.prices ++
        [{ id := s.next_price_id, product_id := pid, market_id := mid,
           price := 1200, date := "2024-01-15" }],
      next_price_id := s.next_price_id + 1 } =
      joined s ++ [{ product := prow.2, market := mrow.2.1,
                     price := 1200, date := "2024-01-15" }] := by
    simp only [joined, List.flatMap_append]
    congr 1
    simp [hpfilter, hmfilter]
  -- the pre-sort row list of the original fetch is empty
  have h0X : ((joined s).filter (fun r => r.product == "Maize")).filter
      (fun r => r.market == "Kampala Central") = [] := by
    apply eq_nil_of_insertionSort_eq_nil dateLe
    have ht : truthy (some "Kampala Central") = true := by rfl
    simpa [fetch_timeseries, ht] using h0
  rw [fetch_timeseries]
  simp only [hjoin, List.filter_append]
  have ht : truthy (some "Kampala Central") = true := by rfl
  rw [if_pos ht]
  rw [List.filter_filter] at h0X
  simp only [List.filter_append, hpname, hmname]
  simp [List.filter, h0X, List.insertionSort, List.orderedInsert]

/-- Witness for C3: registering the product and market on a fresh store
and running the round trip. -/
theorem C3_witness :
    (record_price "Maize" "Kampala Central" 1200 "2024-01-15"
        (add_market "Kampala Central" "" (add_product "Maize" emptyStore))).map
        (fetch_timeseries "Maize" (some "Kampala Central"))
      = .ok [{ product := "Maize", market := "Kampala Central",
               price := 1200, date := "2024-01-15" }] :=
  C3_record_then_fetch_round_trip
    (add_market "Kampala Central" "" (add_product "Maize" emptyStore))
    (by decide) (by decide) (by decide) (by decide) (by decide)

end PriceTracker
